import Mathlib

/-!
Shallow embedding of `julio.go` (package `julio`): an append-only Postgres
table of JSON documents exposed as an ordered, optionally live-tailed event
stream.  The embedding models the pure data flow of the two background tasks
(`selectloop`, `notifyloop`), the `Add` insert helper, the `Close` operation
and the shared `Err` slot.  External effects (the SQL store, channels, the
cancellation signal) are made explicit: the store is a list of rows together
with the standard semantics of the generated
`SELECT id, data ... WHERE ... ORDER BY id [OFFSET n]` statements, channels
are FIFO lists, and the `done` channel is a countdown saying after how many
push attempts the signal fires.
-/

namespace Julio

/-- A row of a julio table: `type Row struct { ID int; Data json.RawMessage }`.
`Data` is an opaque serialized document, modelled as a string. -/
structure Row where
  id : Int
  data : String
deriving DecidableEq, Repr

/-- Go error values observed by the code, tagged by their origin:
JSON marshalling, squirrel statement building, `DB.Query`/`QueryRow`,
`strconv.Atoi` on a notification payload, `listener.Listen`, `rows.Scan`,
and `rows.Err`. -/
inductive JErr where
  | json (msg : String)
  | build (msg : String)
  | db (msg : String)
  | parse (payload : String)
  | listen (msg : String)
  | scan (msg : String)
  | iter (msg : String)
deriving DecidableEq, Repr

/-- `type Filter struct { Sqlizer squirrel.Sqlizer; Offset uint64; Updates bool }`.
The opaque SQL predicate is modelled by its semantics, a boolean function on
rows; `updates` is the live-tail flag. -/
structure Filter where
  sqlizer : Row → Bool
  offset : Nat
  updates : Bool

/-- Ordering of rows by `id`, the `ORDER BY id` sort key. -/
def rowLe (a b : Row) : Prop := a.id ≤ b.id

instance : DecidableRel rowLe := fun a b => inferInstanceAs (Decidable (a.id ≤ b.id))

instance : IsTotal Row rowLe := ⟨fun a b => Int.le_total a.id b.id⟩

instance : IsTrans Row rowLe := ⟨fun _ _ _ h1 h2 => le_trans h1 h2⟩

/-- `ORDER BY id`: sort rows ascending by id (stable sort). -/
def sortById (l : List Row) : List Row := l.insertionSort rowLe

/-- Store semantics of the generated statement
`SELECT id, data FROM tbl WHERE pred ORDER BY id OFFSET off`:
keep the rows satisfying the predicate, sort them ascending by id, and skip
the first `off` of them.  A statement built without an `Offset` clause is the
instance `off = 0`. -/
def queryStore (tbl : List Row) (pred : Row → Bool) (off : Nat) : List Row :=
  (sortById (tbl.filter pred)).drop off

/-! ### strconv.Atoi -/

/-- Value of a decimal digit character, `none` on a non-digit. -/
def digitVal (c : Char) : Option Nat :=
  if c.isDigit then some (c.toNat - 48) else none

/-- Parse a nonempty all-digit string of characters as a natural number. -/
def parseDigits (cs : List Char) : Option Nat :=
  match cs with
  | [] => none
  | _ => cs.foldlM (fun acc c => (digitVal c).map (fun d => acc * 10 + d)) 0

/-- `strconv.Atoi`: an optional single leading sign followed by at least one
decimal digit and nothing else; every other string is an error (`none`).
(Go additionally reports a range error past 64 bits together with a clamped
value; since the caller only branches on the error being non-nil, the
clamping is not modelled.) -/
def atoi (s : String) : Option Int :=
  match s.toList with
  | '+' :: cs => (parseDigits cs).map Int.ofNat
  | '-' :: cs => (parseDigits cs).map (fun n => -(n : Int))
  | cs => (parseDigits cs).map Int.ofNat

/-! ### Add -/

/-- Effects of one `Add` call: the outcome of `json.Marshal(v)`, of
`ToSql()` on the built insert statement, and of `QueryRow(...).Scan(&id)`
(the id the store assigns, or the database error). -/
structure AddEnv where
  marshal : Except JErr String
  build : String → Except JErr String
  dbInsert : Except JErr Int

/-- Result of `Add`: the returned pair plus whether the database was reached
(`QueryRow` was issued). -/
structure AddResult where
  id : Int
  err : Option JErr
  dbTouched : Bool
deriving DecidableEq, Repr

/-- `func (j *Julio) Add(table string, v interface{}) (int, error)`:
marshal the document (on error return `0, err`), build the insert statement
(on error return `0, err`), else run it and scan the returned id. -/
def Add (env : AddEnv) : AddResult :=
  match env.marshal with
  | .error e => ⟨0, some e, false⟩
  | .ok data =>
    match env.build data with
    | .error e => ⟨0, some e, false⟩
    | .ok _query =>
      match env.dbInsert with
      | .error e => ⟨0, some e, true⟩
      | .ok id => ⟨id, none, true⟩

/-! ### Close and the done channel -/

/-- `close(ch)` on a Go channel whose closed-state is `c`: the channel ends
up closed, and the runtime panics exactly when it was already closed.
Result: (new closed-state, panicked). -/
def closeChannel (c : Bool) : Bool × Bool := (true, c)

/-- `func (r *Rows) Close() { defer func() { recover() }(); close(r.done) }`:
close the done channel; the deferred `recover` turns any double-close panic
into a normal return.  Result: (new done state, does a panic escape to the
caller). -/
def CloseRows (done : Bool) : Bool × Bool :=
  let st := closeChannel done
  (st.1, false)

/-! ### The Err slot -/

/-- One assignment `r.Err = err`: a plain overwriting write to the shared
slot. -/
def errWrite (_slot : Option JErr) (e : JErr) : Option JErr := some e

/-- State of the `Err` slot after a sequence of `r.Err = err` assignments,
performed in interleaving order, starting from the zero value `nil`. -/
def errSlotAfter (writes : List JErr) : Option JErr :=
  writes.foldl errWrite none

/-- The `Err` slot once both tasks have finished, given the terminal error
each task recorded (at most one each), in the order the two writes reached
the slot. -/
def cursorErr (first second : Option JErr) : Option JErr :=
  errSlotAfter (first.toList ++ second.toList)

/-! ### The scan-and-push loop shared by both tasks

Both loops iterate `rows.Next()` / `rows.Scan` over a query result and push
each row through a `select` that also watches `r.done`.  The `done` signal is
modelled by a countdown `cancelAfter`: the signal has fired once the running
count of completed pushes (`cnt`) has reached it.  `scanErr` says at which
row index (within this query) `rows.Scan` fails. -/

/-- Outcome of the scan-and-push loop: rows delivered, the scan error if one
occurred, whether a push aborted on `done`, and the updated push count. -/
structure PushOut where
  sent : List Row
  err : Option JErr
  aborted : Bool
  count : Nat
deriving DecidableEq, Repr

/-- Has the `done` signal fired after `cnt` completed pushes? -/
def cancelFired (cancelAfter : Option Nat) (cnt : Nat) : Bool :=
  match cancelAfter with
  | none => false
  | some c => c ≤ cnt

/-- The loop body: for the row at index `i`, `rows.Scan` may fail (terminal,
with the rows pushed so far kept); otherwise
`select { case ch <- row: ; case <-r.done: return }` delivers the row or
aborts silently once `done` has fired. -/
def pushRows (cancelAfter : Option Nat) (scanErr : Option (Nat × JErr)) :
    Nat → Nat → List Row → PushOut
  | _, cnt, [] => ⟨[], none, false, cnt⟩
  | i, cnt, r :: rest =>
    if scanErr.any (fun p => p.1 = i) then
      ⟨[], scanErr.map Prod.snd, false, cnt⟩
    else if cancelFired cancelAfter cnt then
      ⟨[], none, true, cnt⟩
    else
      let out := pushRows cancelAfter scanErr (i + 1) (cnt + 1) rest
      ⟨r :: out.sent, out.err, out.aborted, out.count⟩

/-! ### selectloop -/

/-- Effects visible to one `selectloop` run: the table contents, the filter,
the outcomes of `ToSql`, `DB.Query`, per-row `Scan` and `rows.Err()`, when
the `done` signal fires (counted in pushes to `C`), and the entries received
from the backlog channel before it closes. -/
structure SelectEnv where
  table : List Row
  filter : Filter
  buildErr : Option JErr
  queryErr : Option JErr
  scanErr : Option (Nat × JErr)
  iterErr : Option JErr
  cancelAfter : Option Nat
  backlog : List Row

/-- Result of `selectloop`: the rows pushed to the output channel `C` in
order, the error it assigned to `r.Err` (if any), and whether `C` was closed
(the deferred `close(r.C)`, hence always true). -/
structure SelectResult where
  pushed : List Row
  err : Option JErr
  closedC : Bool
deriving DecidableEq, Repr

/-- `func (r *Rows) selectloop()`: build
`SELECT id, data FROM table WHERE sqlizer OFFSET offset ORDER BY id`
(build or query errors are terminal), push each historical row to `C`
watching `done`, check `rows.Err()`, then drain:
`for row := range r.backlog { r.C <- row }` — the drain send is a plain
send that does not watch `done`, so every backlog entry is pushed
regardless of cancellation.  `close(r.C)` is deferred. -/
def selectRun (env : SelectEnv) : SelectResult :=
  match env.buildErr with
  | some e => ⟨[], some e, true⟩
  | none =>
    match env.queryErr with
    | some e => ⟨[], some e, true⟩
    | none =>
      let hist := queryStore env.table env.filter.sqlizer env.filter.offset
      let out := pushRows env.cancelAfter env.scanErr 0 0 hist
      if out.err.isSome then ⟨out.sent, out.err, true⟩
      else if out.aborted then ⟨out.sent, none, true⟩
      else
        match env.iterErr with
        | some e => ⟨out.sent, some e, true⟩
        | none => ⟨out.sent ++ env.backlog, none, true⟩

/-- Modelled from the spec (not the source): a drain phase in which every
push of a backlog entry to the output queue simultaneously watches the
cancellation signal, so the forwarding stops as soon as `done` has fired. -/
def drainSpecModel (cancelAfter : Option Nat) : Nat → List Row → List Row
  | _, [] => []
  | cnt, r :: rest =>
    if cancelFired cancelAfter cnt then []
    else r :: drainSpecModel cancelAfter (cnt + 1) rest

/-! ### notifyloop -/

/-- One iteration of the listener's `select`: the `done` branch, a
notification (its payload, the table snapshot the re-check query runs
against, and the outcomes of `ToSql`, `DB.Query`, per-row `Scan` and
`rows.Err()` for that re-check), or the 90 s keepalive timeout. -/
inductive NEvent where
  | done
  | notify (payload : String) (tbl : List Row) (buildErr : Option JErr)
      (dbErr : Option JErr) (scanErr : Option (Nat × JErr)) (iterErr : Option JErr)
  | timeout

/-- Effects visible to one `notifyloop` run: the filter, the outcome of
`listener.Listen`, when `done` fires (counted in pushes to the backlog),
and the observed sequence of select iterations. -/
structure NotifyEnv where
  filter : Filter
  listenErr : Option JErr
  cancelAfter : Option Nat
  events : List NEvent

/-- Result of `notifyloop`: the rows pushed to the backlog in order, the
error it assigned to `r.Err` (if any), whether the backlog was closed (the
deferred `close(r.backlog)`, hence always true), and whether
`listener.Listen` was called. -/
structure NotifyResult where
  pushed : List Row
  err : Option JErr
  closedBacklog : Bool
  listened : Bool
deriving DecidableEq, Repr

/-- The re-check predicate the listener builds for a notified id `n`:
`WHERE id = n AND sqlizer` — the conjunction of the exact id and the
filter's own predicate. -/
def recheckPred (f : Filter) (n : Int) : Row → Bool :=
  fun row => decide (row.id = n) && f.sqlizer row

/-- The listener's `for { select { ... } }` loop: stop on `done`; on a
notification, `strconv.Atoi` the payload (terminal on failure), build and run
`SELECT id, data FROM table WHERE (id = n AND sqlizer) ORDER BY id` — note:
no `Offset` clause — and push each result to the backlog watching `done`;
on the keepalive timeout, fire `go listener.Ping()` and continue. -/
def notifySteps (f : Filter) (cancelAfter : Option Nat) :
    Nat → List NEvent → List Row × Option JErr
  | _, [] => ([], none)
  | _, .done :: _ => ([], none)
  | cnt, .timeout :: rest => notifySteps f cancelAfter cnt rest
  | cnt, .notify p tbl bErr dbErr scanE iterE :: rest =>
    match atoi p with
    | none => ([], some (.parse p))
    | some n =>
      match bErr with
      | some e => ([], some e)
      | none =>
        match dbErr with
        | some e => ([], some e)
        | none =>
          let rows := queryStore tbl (recheckPred f n) 0
          let out := pushRows cancelAfter scanE 0 cnt rows
          if out.err.isSome then (out.sent, out.err)
          else if out.aborted then (out.sent, none)
          else
            match iterE with
            | some e => (out.sent, some e)
            | none =>
              let tail := notifySteps f cancelAfter out.count rest
              (out.sent ++ tail.1, tail.2)

/-- `func (r *Rows) notifyloop()`: `close(r.backlog)` is deferred; when
`filter.Updates` is false return at once (never creating a listener);
otherwise `Listen` on the table's channel (terminal on error) and enter the
select loop. -/
def notifyRun (env : NotifyEnv) : NotifyResult :=
  if env.filter.updates = false then ⟨[], none, true, false⟩
  else
    match env.listenErr with
    | some e => ⟨[], some e, true, true⟩
    | none =>
      let out := notifySteps env.filter env.cancelAfter 0 env.events
      ⟨out.1, out.2, true, true⟩

/-! ### Get: the composed cursor -/

/-- A `SelectEnv` in which the store and the iteration succeed and `done`
never fires. -/
def cleanSelectEnv (tbl : List Row) (f : Filter) (backlog : List Row) : SelectEnv :=
  ⟨tbl, f, none, none, none, none, none, backlog⟩

/-- `Get(table, filter)` for a non-live filter, run to completion without
errors or cancellation: `notifyloop` closes the backlog immediately, and the
consumer drains `C`, i.e. reads exactly what `selectloop` pushed. -/
def cursorNonLiveRun (tbl : List Row) (f : Filter) : SelectResult :=
  let nres := notifyRun ⟨f, none, none, []⟩
  selectRun (cleanSelectEnv tbl f nres.pushed)

/-! ### Helper lemmas -/

/-- With no scan error and no cancellation, the scan-and-push loop delivers
every row of the query result, in order. -/
theorem pushRows_clean (rows : List Row) :
    ∀ i cnt, pushRows none none i cnt rows = ⟨rows, none, false, cnt + rows.length⟩ := by
  induction rows with
  | nil => intro i cnt; simp [pushRows]
  | cons r rest ih =>
    intro i cnt
    simp [pushRows, cancelFired, ih]
    omega

/-- With no scan error and the `done` signal firing strictly inside the
query result, the loop delivers exactly the rows before the signal and then
aborts. -/
theorem pushRows_cancel_aux (rows : List Row) :
    ∀ i cnt c, cnt ≤ c → c - cnt < rows.length →
      pushRows (some c) none i cnt rows = ⟨rows.take (c - cnt), none, true, c⟩ := by
  induction rows with
  | nil => intro i cnt c _ h; simp at h
  | cons r rest ih =>
    intro i cnt c hle h
    by_cases hc : c ≤ cnt
    · have heq : c = cnt := le_antisymm hc hle
      subst heq
      simp [pushRows, cancelFired]
    · have h1 : cnt + 1 ≤ c := by omega
      have h2 : c - (cnt + 1) < rest.length := by
        simp only [List.length_cons] at h; omega
      rw [List.take_cons (by omega)]
      simp [pushRows, cancelFired, hc, ih (i + 1) (cnt + 1) c h1 h2]
      omega

/-- Specialization: starting from count zero. -/
theorem pushRows_cancel (c : Nat) (rows : List Row) (h : c < rows.length) :
    pushRows (some c) none 0 0 rows = ⟨rows.take c, none, true, c⟩ := by
  simpa using pushRows_cancel_aux rows 0 0 c (Nat.zero_le c) (by simpa using h)

/-- The query result is sorted ascending by id. -/
theorem sorted_queryStore (tbl : List Row) (p : Row → Bool) (off : Nat) :
    (queryStore tbl p off).Sorted rowLe :=
  List.Pairwise.sublist (List.drop_sublist off _) (List.sorted_insertionSort rowLe _)

/-- The query result has pairwise-distinct ids whenever the table does
(ids form the primary key). -/
theorem nodup_ids_queryStore (tbl : List Row) (p : Row → Bool) (off : Nat)
    (h : (tbl.map Row.id).Nodup) : ((queryStore tbl p off).map Row.id).Nodup := by
  have h1 : ((tbl.filter p).map Row.id).Nodup :=
    List.Nodup.sublist (List.Sublist.map Row.id (List.filter_sublist tbl)) h
  have h2 : ((sortById (tbl.filter p)).map Row.id).Nodup :=
    ((List.Perm.map Row.id (List.perm_insertionSort rowLe (tbl.filter p))).symm).nodup h1
  have h3 : (queryStore tbl p off).map Row.id
      = ((sortById (tbl.filter p)).map Row.id).drop off :=
    List.map_drop Row.id (sortById (tbl.filter p)) off
  rw [h3]
  exact List.Nodup.sublist (List.drop_sublist off _) h2

/-- A list sorted by id with pairwise-distinct ids is strictly ascending. -/
theorem pairwise_lt_of_sorted_nodup (l : List Row)
    (hs : l.Sorted rowLe) (hn : (l.map Row.id).Nodup) :
    l.Pairwise (fun a b => a.id < b.id) := by
  have hne : l.Pairwise (fun a b => a.id ≠ b.id) := List.pairwise_map.mp hn
  exact (hs.and hne).imp (fun h => lt_of_le_of_ne h.1 h.2)

/-- Folding plain overwrites from a non-nil slot keeps the last write. -/
theorem foldl_errWrite (ws : List JErr) :
    ∀ i : JErr, ws.foldl errWrite (some i) = some (ws.getLastD i) := by
  induction ws with
  | nil => intro i; rfl
  | cons w ws ih =>
    intro i
    show List.foldl errWrite (errWrite (some i) w) ws = some ((w :: ws).getLastD i)
    rw [show errWrite (some i) w = some w from rfl, ih w, List.getLastD_cons]

/-- The listener's loop reads the filter only through its predicate: two
filters with the same predicate drive it identically. -/
theorem notifySteps_sqlizer_eq (f g : Filter) (h : f.sqlizer = g.sqlizer)
    (ca : Option Nat) :
    ∀ (evs : List NEvent) (cnt : Nat),
      notifySteps f ca cnt evs = notifySteps g ca cnt evs := by
  intro evs
  induction evs with
  | nil => intro cnt; rfl
  | cons e rest ih =>
    intro cnt
    cases e with
    | done => rfl
    | timeout =>
      simp only [notifySteps]
      exact ih cnt
    | notify p tbl b d s ie =>
      have hpred : ∀ n, recheckPred f n = recheckPred g n := by
        intro n; unfold recheckPred; rw [h]
      simp only [notifySteps, hpred]
      cases atoi p with
      | none => rfl
      | some n =>
        cases b with
        | some e => rfl
        | none =>
          cases d with
          | some e => rfl
          | none => simp [ih]

/-! ### Claims -/

/-- C1: for every table with primary-key ids and every non-live Filter, run
cleanly to completion, draining the cursor yields exactly the rows matching
the predicate sorted ascending by id with the first Offset matches skipped,
in strictly ascending id order, pushed in query order; the run records no
error and closes the output queue. -/
theorem nonlive_stream_sorted_filtered (tbl : List Row) (f : Filter)
    (hids : (tbl.map Row.id).Nodup) (hlive : f.updates = false) :
    (cursorNonLiveRun tbl f).pushed
      = (sortById (tbl.filter f.sqlizer)).drop f.offset ∧
    (cursorNonLiveRun tbl f).pushed.Pairwise (fun a b => a.id < b.id) ∧
    (cursorNonLiveRun tbl f).err = none ∧
    (cursorNonLiveRun tbl f).closedC = true := by
  have hrun : cursorNonLiveRun tbl f
      = ⟨queryStore tbl f.sqlizer f.offset, none, true⟩ := by
    simp [cursorNonLiveRun, notifyRun, hlive, selectRun, cleanSelectEnv,
      pushRows_clean]
  refine ⟨by rw [hrun]; rfl, ?_, by rw [hrun], by rw [hrun]⟩
  rw [hrun]
  exact pairwise_lt_of_sorted_nodup _ (sorted_queryStore tbl f.sqlizer f.offset)
    (nodup_ids_queryStore tbl f.sqlizer f.offset hids)

/-- Witness for C1 at a concrete table and non-live filter. -/
theorem nonlive_stream_sorted_filtered_witness :
    ((([⟨3, "c"⟩, ⟨1, "a"⟩, ⟨2, "b"⟩] : List Row).map Row.id).Nodup ∧
      (Filter.mk (fun r => decide (2 ≤ r.id)) 1 false).updates = false) ∧
    ((cursorNonLiveRun [⟨3, "c"⟩, ⟨1, "a"⟩, ⟨2, "b"⟩]
          (Filter.mk (fun r => decide (2 ≤ r.id)) 1 false)).pushed
        = (sortById (([⟨3, "c"⟩, ⟨1, "a"⟩, ⟨2, "b"⟩] : List Row).filter
            (Filter.mk (fun r => decide (2 ≤ r.id)) 1 false).sqlizer)).drop
            (Filter.mk (fun r => decide (2 ≤ r.id)) 1 false).offset ∧
      (cursorNonLiveRun [⟨3, "c"⟩, ⟨1, "a"⟩, ⟨2, "b"⟩]
          (Filter.mk (fun r => decide (2 ≤ r.id)) 1 false)).pushed.Pairwise
          (fun a b => a.id < b.id) ∧
      (cursorNonLiveRun [⟨3, "c"⟩, ⟨1, "a"⟩, ⟨2, "b"⟩]
          (Filter.mk (fun r => decide (2 ≤ r.id)) 1 false)).err = none ∧
      (cursorNonLiveRun [⟨3, "c"⟩, ⟨1, "a"⟩, ⟨2, "b"⟩]
          (Filter.mk (fun r => decide (2 ≤ r.id)) 1 false)).closedC = true) :=
  ⟨⟨by decide, rfl⟩, nonlive_stream_sorted_filtered _ _ (by decide) rfl⟩

/-- C2: failing input for the drain phase — the `done` channel is already
closed (cancellation fired before any push), the historical query returns
nothing, and one row sits in the backlog.  The drain-phase send
`r.C <- row` does not watch `r.done`, so the entry is still pushed to the
output queue; the spec-modelled drain, whose every push watches the
cancellation signal, forwards nothing there. -/
theorem drain_push_ignores_done :
    selectRun ⟨[], ⟨fun _ => true, 0, true⟩, none, none, none, none, some 0, [⟨1, "x"⟩]⟩
      = ⟨[⟨1, "x"⟩], none, true⟩ ∧
    drainSpecModel (some 0) 0 [⟨1, "x"⟩] = [] ∧
    cancelFired (some 0) 0 = true :=
  ⟨by decide, rfl, rfl⟩

/-- C3 counterexample: with the listener recording its error before the scan
task records its own, the slot ends at the second (later) error, not the
first — `r.Err = err` is a plain overwrite, so first-write-wins fails. -/
theorem err_slot_not_first_write :
    cursorErr (some (.listen "subscription lost")) (some (.db "query failed"))
      = some (.db "query failed") ∧
    cursorErr (some (.listen "subscription lost")) (some (.db "query failed"))
      ≠ some (.listen "subscription lost") :=
  ⟨rfl, by decide⟩

/-- C3 amended: the `Err` slot is a plain overwriting assignment: after any
interleaved sequence of `r.Err = err` writes the slot holds the last error
written (nil when no write happened), so when both tasks record errors the
later write surfaces and the earlier one is discarded. -/
theorem err_slot_last_write_wins :
    errSlotAfter [] = none ∧
    (∀ (w : JErr) (ws : List JErr), errSlotAfter (w :: ws) = some (ws.getLastD w)) ∧
    (∀ (s : Option JErr) (e : JErr), errWrite s e = some e) := by
  refine ⟨rfl, ?_, fun s e => rfl⟩
  intro w ws
  show List.foldl errWrite (errWrite none w) ws = _
  exact foldl_errWrite ws w

/-- C4: `Close` never lets a fault escape (the deferred `recover` swallows
the double-close panic, which the last conjunct shows does occur on a second
call), closes the done channel on the first call, and a repeated call is a
no-op: the state after closing an already-closed cursor equals the state
after the first close.  Closing a channel returns without blocking. -/
theorem close_idempotent_never_raises :
    ∀ st : Bool,
      (CloseRows st).2 = false ∧
      (CloseRows st).1 = true ∧
      CloseRows (CloseRows st).1 = CloseRows st ∧
      (closeChannel true).2 = true := by
  intro st; cases st <;> exact ⟨rfl, rfl, rfl, rfl⟩

/-- C5: a notification payload that `strconv.Atoi` rejects is terminal for
the listener: the parse error is recorded in the error slot, the loop exits
(later events are never processed), and the deferred close of the backlog
runs. -/
theorem malformed_payload_terminal (f : Filter) (ca : Option Nat) (p : String)
    (tbl : List Row) (b d : Option JErr) (s : Option (Nat × JErr))
    (ie : Option JErr) (rest : List NEvent)
    (hupd : f.updates = true) (hp : atoi p = none) :
    notifyRun ⟨f, none, ca, .notify p tbl b d s ie :: rest⟩
      = ⟨[], some (.parse p), true, true⟩ := by
  simp [notifyRun, hupd, notifySteps, hp]

/-- Witness for C5 on the non-numeric payload "boom". -/
theorem malformed_payload_terminal_witness :
    ((Filter.mk (fun _ => true) 0 true).updates = true ∧ atoi "boom" = none) ∧
    notifyRun ⟨⟨fun _ => true, 0, true⟩, none, none,
        [.notify "boom" [] none none none none, .timeout]⟩
      = ⟨[], some (.parse "boom"), true, true⟩ :=
  ⟨⟨rfl, by decide⟩, malformed_payload_terminal _ _ _ _ _ _ _ _ _ rfl (by decide)⟩

/-- C6: on a notification whose payload parses as id `n`, the listener runs
one query whose predicate is the conjunction `id = n AND sqlizer`, ordered
by id, and pushes each of its rows to the backlog in query order before
handling later events; moreover every row of that query result has id `n`
and satisfies the filter's predicate — the payload alone is never treated as
proof of a match. -/
theorem notify_recheck_conjunction (f : Filter) (p : String) (n : Int)
    (tbl : List Row) (rest : List NEvent)
    (hupd : f.updates = true) (hp : atoi p = some n) :
    (notifyRun ⟨f, none, none, .notify p tbl none none none none :: rest⟩).pushed
      = queryStore tbl (recheckPred f n) 0
        ++ (notifySteps f none (queryStore tbl (recheckPred f n) 0).length rest).1 ∧
    ∀ row ∈ queryStore tbl (recheckPred f n) 0,
      row.id = n ∧ f.sqlizer row = true := by
  constructor
  · simp [notifyRun, hupd, notifySteps, hp, pushRows_clean]
  · intro row hrow
    have hsort : row ∈ sortById (tbl.filter (recheckPred f n)) := by
      simpa [queryStore] using hrow
    have hmem : row ∈ tbl.filter (recheckPred f n) :=
      (List.perm_insertionSort rowLe _).mem_iff.mp hsort
    have hpred : recheckPred f n row = true := (List.mem_filter.mp hmem).2
    simpa [recheckPred] using hpred

/-- Witness for C6 on payload "5" against a two-row snapshot. -/
theorem notify_recheck_conjunction_witness :
    ((Filter.mk (fun r => decide (3 < r.id)) 0 true).updates = true ∧
      atoi "5" = some 5) ∧
    ((notifyRun ⟨⟨fun r => decide (3 < r.id), 0, true⟩, none, none,
          [.notify "5" [⟨5, "x"⟩, ⟨2, "y"⟩] none none none none]⟩).pushed
        = queryStore [⟨5, "x"⟩, ⟨2, "y"⟩]
            (recheckPred ⟨fun r => decide (3 < r.id), 0, true⟩ 5) 0
          ++ (notifySteps ⟨fun r => decide (3 < r.id), 0, true⟩ none
              (queryStore [⟨5, "x"⟩, ⟨2, "y"⟩]
                (recheckPred ⟨fun r => decide (3 < r.id), 0, true⟩ 5) 0).length []).1 ∧
      ∀ row ∈ queryStore [⟨5, "x"⟩, ⟨2, "y"⟩]
          (recheckPred ⟨fun r => decide (3 < r.id), 0, true⟩ 5) 0,
        row.id = 5 ∧ (Filter.mk (fun r => decide (3 < r.id)) 0 true).sqlizer row = true) :=
  ⟨⟨rfl, by decide⟩, notify_recheck_conjunction _ _ _ _ _ rfl (by decide)⟩

/-- C7: with LiveTail false the listener only closes the backlog — it pushes
nothing, records no error, and never calls `Listen`, whatever events or
cancellation occur; the cursor's historical scan then runs to normal
completion, pushes exactly the historical query result, records no error and
closes the output queue. -/
theorem nonlive_listener_noop (f : Filter) (le : Option JErr) (ca : Option Nat)
    (evs : List NEvent) (tbl : List Row) (hupd : f.updates = false) :
    notifyRun ⟨f, le, ca, evs⟩ = ⟨[], none, true, false⟩ ∧
    (cursorNonLiveRun tbl f).pushed = queryStore tbl f.sqlizer f.offset ∧
    (cursorNonLiveRun tbl f).err = none ∧
    (cursorNonLiveRun tbl f).closedC = true := by
  have h1 : notifyRun ⟨f, le, ca, evs⟩ = ⟨[], none, true, false⟩ := by
    simp [notifyRun, hupd]
  have h2 : cursorNonLiveRun tbl f
      = ⟨queryStore tbl f.sqlizer f.offset, none, true⟩ := by
    simp [cursorNonLiveRun, notifyRun, hupd, selectRun, cleanSelectEnv,
      pushRows_clean]
  exact ⟨h1, by rw [h2], by rw [h2], by rw [h2]⟩

/-- Witness for C7 at a concrete non-live filter with pending events. -/
theorem nonlive_listener_noop_witness :
    (Filter.mk (fun _ => true) 0 false).updates = false ∧
    (notifyRun ⟨⟨fun _ => true, 0, false⟩, none, some 0,
        [.notify "1" [⟨1, "a"⟩] none none none none]⟩ = ⟨[], none, true, false⟩ ∧
      (cursorNonLiveRun [⟨1, "a"⟩] ⟨fun _ => true, 0, false⟩).pushed
        = queryStore [⟨1, "a"⟩] (Filter.mk (fun _ => true) 0 false).sqlizer
            (Filter.mk (fun _ => true) 0 false).offset ∧
      (cursorNonLiveRun [⟨1, "a"⟩] ⟨fun _ => true, 0, false⟩).err = none ∧
      (cursorNonLiveRun [⟨1, "a"⟩] ⟨fun _ => true, 0, false⟩).closedC = true) :=
  ⟨rfl, nonlive_listener_noop _ _ _ _ _ rfl⟩

/-- C8: cancellation is silent — in either task, when the `done` signal
fires strictly inside a sequence of pushes, the task stops at the signal,
delivers exactly the rows before it, writes nothing to the error slot, and
the deferred close still runs. -/
theorem cancellation_silent :
    (∀ (tbl : List Row) (f : Filter) (backlog : List Row) (c : Nat),
      c < (queryStore tbl f.sqlizer f.offset).length →
      selectRun ⟨tbl, f, none, none, none, none, some c, backlog⟩
        = ⟨(queryStore tbl f.sqlizer f.offset).take c, none, true⟩) ∧
    (∀ (f : Filter) (p : String) (n : Int) (tbl : List Row)
        (rest : List NEvent) (c : Nat),
      f.updates = true → atoi p = some n →
      c < (queryStore tbl (recheckPred f n) 0).length →
      notifyRun ⟨f, none, some c, .notify p tbl none none none none :: rest⟩
        = ⟨(queryStore tbl (recheckPred f n) 0).take c, none, true, true⟩) := by
  constructor
  · intro tbl f backlog c hc
    simp [selectRun, pushRows_cancel c _ hc]
  · intro f p n tbl rest c hupd hp hc
    simp [notifyRun, hupd, notifySteps, hp, pushRows_cancel c _ hc]

/-- Witness for C8: `done` fires before the only push in each task. -/
theorem cancellation_silent_witness :
    (0 < (queryStore [⟨1, "a"⟩] (Filter.mk (fun _ => true) 0 true).sqlizer
          (Filter.mk (fun _ => true) 0 true).offset).length ∧
      selectRun ⟨[⟨1, "a"⟩], ⟨fun _ => true, 0, true⟩, none, none, none, none,
          some 0, [⟨9, "z"⟩]⟩
        = ⟨(queryStore [⟨1, "a"⟩] (Filter.mk (fun _ => true) 0 true).sqlizer
            (Filter.mk (fun _ => true) 0 true).offset).take 0, none, true⟩) ∧
    ((Filter.mk (fun _ => true) 0 true).updates = true ∧ atoi "1" = some 1 ∧
      0 < (queryStore [⟨1, "a"⟩]
          (recheckPred ⟨fun _ => true, 0, true⟩ 1) 0).length ∧
      notifyRun ⟨⟨fun _ => true, 0, true⟩, none, some 0,
          [.notify "1" [⟨1, "a"⟩] none none none none]⟩
        = ⟨(queryStore [⟨1, "a"⟩]
            (recheckPred ⟨fun _ => true, 0, true⟩ 1) 0).take 0, none, true, true⟩) :=
  ⟨⟨by decide, cancellation_silent.1 _ _ _ 0 (by decide)⟩,
    ⟨rfl, by decide, by decide,
      cancellation_silent.2 _ _ _ _ _ 0 rfl (by decide) (by decide)⟩⟩

/-- C9: the live-tail re-check never applies the Filter's Offset — the
listener behaves identically under any two offsets (its query carries no
Offset clause, here the constant 0) — while the historical scan does apply
it: at offset 1 the scan's query skips the only matching row, yet the
re-check on that row's notification still delivers it. -/
theorem recheck_ignores_offset :
    (∀ (f : Filter) (o : Nat) (le : Option JErr) (ca : Option Nat)
        (evs : List NEvent),
      notifyRun ⟨⟨f.sqlizer, o, f.updates⟩, le, ca, evs⟩
        = notifyRun ⟨f, le, ca, evs⟩) ∧
    queryStore [⟨5, "x"⟩] (fun _ => true) 1 = [] ∧
    (notifyRun ⟨⟨fun _ => true, 1, true⟩, none, none,
        [.notify "5" [⟨5, "x"⟩] none none none none]⟩).pushed = [⟨5, "x"⟩] := by
  refine ⟨?_, rfl, by decide⟩
  intro f o le ca evs
  have hsteps := notifySteps_sqlizer_eq ⟨f.sqlizer, o, f.updates⟩ f rfl ca evs 0
  simp [notifyRun, hsteps]

/-- C10: `Add` propagates a marshalling or statement-building failure as
`(0, that error)` without touching the database, and otherwise returns the
id the store assigned to the inserted row with a nil error. -/
theorem add_error_paths (env : AddEnv) :
    (∀ e, env.marshal = .error e → Add env = ⟨0, some e, false⟩) ∧
    (∀ data e, env.marshal = .ok data → env.build data = .error e →
      Add env = ⟨0, some e, false⟩) ∧
    (∀ data q i, env.marshal = .ok data → env.build data = .ok q →
      env.dbInsert = .ok i → Add env = ⟨i, none, true⟩) := by
  refine ⟨?_, ?_, ?_⟩
  · intro e h; simp [Add, h]
  · intro data e h1 h2; simp [Add, h1, h2]
  · intro data q i h1 h2 h3; simp [Add, h1, h2, h3]

/-- Witness for C10's three paths. -/
theorem add_error_paths_witness :
    Add ⟨.error (.json "bad document"), fun d => .ok d, .ok 7⟩
      = ⟨0, some (.json "bad document"), false⟩ ∧
    Add ⟨.ok "doc", fun _ => .error (.build "bad statement"), .ok 7⟩
      = ⟨0, some (.build "bad statement"), false⟩ ∧
    Add ⟨.ok "doc", fun d => .ok d, .ok 7⟩ = ⟨7, none, true⟩ :=
  ⟨(add_error_paths _).1 _ rfl,
    (add_error_paths _).2.1 _ _ rfl rfl,
    (add_error_paths _).2.2 _ _ _ rfl rfl rfl⟩

end Julio
